import Mathlib

/-!
# Verification of the parallel evaluator and reporter bus (neat-python fork)

Shallow embedding of `src/parallel.py` (`ParallelEvaluator`) and
`src/reporting.py` (`ReporterSet`, `StdOutReporter`), with theorems settling
the specification's claims about them.

Python conventions used throughout the embedding:
* Python exceptions are modelled by the `PyErr` error type returned through
  `Except`.  `PyErr.rangeStepZero` and `PyErr.poolNotRunning` are both
  `ValueError`s in Python, distinguished here by their raise site
  (`range(0, len, 0)` versus `Pool.apply_async` on a closed pool).
* Python `float` fitness values are opaque to all of the code verified here
  (they are only stored and moved), so genomes are parametrised by the
  fitness carrier type `α`.
-/

namespace Neat

/-- A genome as the evaluator sees it: an identity key and a mutable fitness
slot that is empty until an evaluation writes it. -/
structure Genome (α : Type) where
  key : Nat
  fitness : Option α
deriving DecidableEq, Repr

/-- Python exceptions raised by the code paths of `ParallelEvaluator`. -/
inductive PyErr where
  /-- `ZeroDivisionError` from `len(genomes)/self.num_workers`. -/
  | zeroDivisionError
  /-- `ValueError: range() arg 3 must not be zero` from `range(0, len(l), 0)`
  inside `_chunks`. -/
  | rangeStepZero
  /-- `IndexError` from `self.chunks[i]` with `i` out of range. -/
  | indexError
  /-- `ValueError: Pool not running` from `apply_async` on a closed pool. -/
  | poolNotRunning
  /-- `multiprocessing.TimeoutError` from `job.get(timeout=...)`; note that
  Python raises it with no arguments, so it is a bare constructor carrying
  no information about which job timed out. -/
  | timeoutError
deriving DecidableEq, Repr

/-- State of a `multiprocessing.Pool`: running, or closed (after
`pool.close()`; no further submissions are accepted). -/
inductive PoolState where
  | run
  | closed
deriving DecidableEq, Repr

/-- Equality of `Except` values is decidable componentwise. -/
instance {ε α : Type} [DecidableEq ε] [DecidableEq α] : DecidableEq (Except ε α) :=
  fun x y =>
    match x, y with
    | .ok a, .ok b =>
        if h : a = b then isTrue (by rw [h]) else isFalse (by simp [h])
    | .error a, .error b =>
        if h : a = b then isTrue (by rw [h]) else isFalse (by simp [h])
    | .ok _, .error _ => isFalse (by simp)
    | .error _, .ok _ => isFalse (by simp)

/-- Recursion worker for `chunksList`: structural recursion on a fuel
counter so that the definition reduces in the kernel.  With `1 ≤ n` every
step drops at least one element, so fuel `l.length` is never exhausted. -/
def chunksGo {G : Type} (n : Nat) : Nat → List G → List (List G)
  | _, [] => []
  | 0, _ :: _ => []
  | fuel + 1, x :: xs => (x :: xs).take n :: chunksGo n fuel ((x :: xs).drop n)

/-- `ParallelEvaluator._chunks(l, n)` for a positive chunk size `n`:
`for i in range(0, len(l), n): yield l[i:i + n]`, i.e. successive slices
`l[0:n], l[n:2n], ...` until the list is exhausted (an empty list yields no
chunks, since `range(0, 0, n)` is empty).  Only ever applied with `1 ≤ n`:
`chunksE` intercepts `n = 0` as the `ValueError` that `range` raises. -/
def chunksList {G : Type} (l : List G) (n : Nat) : List (List G) :=
  chunksGo n l.length l

/-- `list(self._chunks(l, n))` including the Python error behaviour:
constructing `range(0, len(l), 0)` raises `ValueError` (even on an empty
list, since the step is validated first). -/
def chunksE {G : Type} (l : List G) (n : Nat) : Except PyErr (List (List G)) :=
  if n = 0 then .error .rangeStepZero else .ok (chunksList l n)

/-- Lines 37–38 of `parallel.py`:
`self.chunks = list(self._chunks(genomes, math.floor(len(genomes)/self.num_workers)))`.
`num_workers = 0` raises `ZeroDivisionError` in the division itself; the
floor of a quotient of non-negative integers is `Nat` division. -/
def evaluateChunks {G : Type} (genomes : List G) (num_workers : Nat) :
    Except PyErr (List (List G)) :=
  if num_workers = 0 then .error .zeroDivisionError
  else chunksE genomes (genomes.length / num_workers)

/-- The outcome of one asynchronous job once `job.get(timeout=...)` is
called on it: either the worker's returned list of evaluated genome copies,
or the bounded wait expires. -/
inductive JobOutcome (α : Type) where
  | done (result : List (Genome α))
  | timeout
deriving DecidableEq, Repr

/-- Lines 40–42 of `parallel.py`: `for i in self.clients: jobs.append(
self.pool.apply_async(self.eval_function, (self.clients[i], self.settings,
self.chunks[i], config)))`.  `clients` is iterated by key; for each key the
argument tuple is built first — so `self.chunks[i]` raises `IndexError`
before the `apply_async` call can raise `ValueError: Pool not running` —
then the job is submitted, which requires the pool to be running.  The
worker behaviour is abstracted by the oracle `work`, mapping a client key
and its chunk to the job's eventual outcome. -/
def dispatchJobs {α : Type} (pool : PoolState)
    (work : Nat → List (Genome α) → JobOutcome α) :
    List Nat → List (List (Genome α)) → Except PyErr (List (JobOutcome α))
  | [], _ => .ok []
  | i :: rest, chunks =>
      match chunks[i]? with
      | none => .error .indexError
      | some c =>
          if pool = .closed then .error .poolNotRunning
          else (dispatchJobs pool work rest chunks).map (work i c :: ·)

/-- Lines 46–47 of `parallel.py`: `for job in jobs: genomes =
list(itertools.chain(job.get(timeout=self.timeout)))`.  Each `get` either
returns the worker's result list — `itertools.chain` of a single iterable
re-yields exactly its elements — and rebinds the **local** name `genomes`
to it, or raises a bare `multiprocessing.TimeoutError`.  The returned value
is the final value of the local variable; no attribute of any caller-owned
genome is ever written. -/
def collectResults {α : Type} (genomes : List (Genome α)) :
    List (JobOutcome α) → Except PyErr (List (Genome α))
  | [] => .ok genomes
  | .done r :: rest => collectResults r rest
  | .timeout :: _ => .error .timeoutError

/-- The state of a `ParallelEvaluator` that the claims observe: the worker
count, the client keys in iteration order, the pool state and the last
computed `self.chunks`.  `eval_function`, `settings` and `timeout` are
opaque payloads threaded through unchanged (the worker behaviour they
induce is the oracle passed to `evaluate`). -/
structure ParallelEvaluator (α : Type) where
  num_workers : Nat
  clients : List Nat
  pool : PoolState
  chunks : List (List (Genome α))
deriving DecidableEq, Repr

/-- `ParallelEvaluator.__init__`: stores the configuration and opens a fresh
pool; `self.chunks = None` is modelled by the empty chunk list. -/
def ParallelEvaluator.init {α : Type} (num_workers : Nat) (clients : List Nat) :
    ParallelEvaluator α :=
  { num_workers := num_workers, clients := clients, pool := .run, chunks := [] }

/-- `ParallelEvaluator.evaluate(genomes, config)` (lines 34–47), end to end:
compute `self.chunks`, submit one job per client key, `close` and `join` the
pool, then run the result loop.  On success the triple returned is the
evaluator's post-state (chunks recorded, pool closed), the caller-visible
`genomes` list — unchanged, because the result loop only rebinds a local
name — and the final value of that local name. -/
def ParallelEvaluator.evaluate {α : Type} (e : ParallelEvaluator α)
    (genomes : List (Genome α)) (work : Nat → List (Genome α) → JobOutcome α) :
    Except PyErr (ParallelEvaluator α × List (Genome α) × List (Genome α)) :=
  if e.num_workers = 0 then .error .zeroDivisionError
  else
    match chunksE genomes (genomes.length / e.num_workers) with
    | .error err => .error err
    | .ok chunks =>
        match dispatchJobs e.pool work e.clients chunks with
        | .error err => .error err
        | .ok jobs =>
            match collectResults genomes jobs with
            | .error err => .error err
            | .ok localVar =>
                .ok ({ e with pool := .closed, chunks := chunks }, genomes, localVar)

/-! ## `src/reporting.py` -/

/-- A reporter as `ReporterSet` sees it.  Hook arguments (generation number,
config, population, species set, …) are opaque to the bus: every broadcast
method passes its own arguments through to each hook verbatim.  A reporter's
reaction to one broadcast is therefore modelled by the hook's outcome —
normal return, or an exception of type `ε`. -/
structure Reporter (ε : Type) where
  start_generation : Except ε Unit
  end_generation : Except ε Unit
  post_evaluate : Except ε Unit
  post_reproduction : Except ε Unit
  complete_extinction : Except ε Unit
  found_solution : Except ε Unit
  species_stagnant : Except ε Unit
  info : Except ε Unit

/-- `ReporterSet`: `self.reporters`, a Python list of registered reporters
(`R` is the reporter type; it is abstract wherever the claim allows). -/
structure ReporterSet (R : Type) where
  reporters : List R
deriving DecidableEq, Repr

/-- `ReporterSet.__init__`: `self.reporters = []`. -/
def ReporterSet.init {R : Type} : ReporterSet R := ⟨[]⟩

/-- `ReporterSet.add`: `self.reporters.append(reporter)` — an unconditional
append, with no duplicate check. -/
def ReporterSet.add {R : Type} (s : ReporterSet R) (r : R) : ReporterSet R :=
  ⟨s.reporters ++ [r]⟩

/-- The error raised by `list.remove` on a missing element (Python
`ValueError`; the spec names it `NotRegistered`). -/
inductive RegistryErr where
  | notRegistered
deriving DecidableEq, Repr

/-- `ReporterSet.remove`: `self.reporters.remove(reporter)` — Python
`list.remove` deletes the **first** occurrence and raises `ValueError` when
the element is absent.  (`List.erase` is exactly first-occurrence removal.) -/
def ReporterSet.remove {R : Type} [DecidableEq R] (s : ReporterSet R) (r : R) :
    Except RegistryErr (ReporterSet R) :=
  if r ∈ s.reporters then .ok ⟨s.reporters.erase r⟩ else .error .notRegistered

/-- The loop body shared by all eight broadcast methods:
`for r in self.reporters: r.hook(...)` — call each registered reporter's
hook in list order; an exception propagates immediately, ending the loop. -/
def broadcast {R ε : Type} (hook : R → Except ε Unit) :
    List R → Except ε Unit
  | [] => .ok ()
  | r :: rs =>
      match hook r with
      | .ok _ => broadcast hook rs
      | .error e => .error e

/-- Instrumented semantics of the same loop: additionally returns the trace
of reporters whose hook was actually invoked, in invocation order. -/
def dispatchTrace {R ε : Type} (hook : R → Except ε Unit) :
    List R → List R × Except ε Unit
  | [] => ([], .ok ())
  | r :: rs =>
      match hook r with
      | .ok _ => (r :: (dispatchTrace hook rs).1, (dispatchTrace hook rs).2)
      | .error e => ([r], .error e)

/-- `ReporterSet.start_generation` (lines 33–35). -/
def ReporterSet.start_generation {ε : Type} (s : ReporterSet (Reporter ε)) :
    Except ε Unit :=
  broadcast (fun r => r.start_generation) s.reporters

/-- `ReporterSet.end_generation` (lines 37–39). -/
def ReporterSet.end_generation {ε : Type} (s : ReporterSet (Reporter ε)) :
    Except ε Unit :=
  broadcast (fun r => r.end_generation) s.reporters

/-- `ReporterSet.post_evaluate` (lines 41–43). -/
def ReporterSet.post_evaluate {ε : Type} (s : ReporterSet (Reporter ε)) :
    Except ε Unit :=
  broadcast (fun r => r.post_evaluate) s.reporters

/-- `ReporterSet.post_reproduction` (lines 45–47). -/
def ReporterSet.post_reproduction {ε : Type} (s : ReporterSet (Reporter ε)) :
    Except ε Unit :=
  broadcast (fun r => r.post_reproduction) s.reporters

/-- `ReporterSet.complete_extinction` (lines 49–51). -/
def ReporterSet.complete_extinction {ε : Type} (s : ReporterSet (Reporter ε)) :
    Except ε Unit :=
  broadcast (fun r => r.complete_extinction) s.reporters

/-- `ReporterSet.found_solution` (lines 53–55). -/
def ReporterSet.found_solution {ε : Type} (s : ReporterSet (Reporter ε)) :
    Except ε Unit :=
  broadcast (fun r => r.found_solution) s.reporters

/-- `ReporterSet.species_stagnant` (lines 57–59). -/
def ReporterSet.species_stagnant {ε : Type} (s : ReporterSet (Reporter ε)) :
    Except ε Unit :=
  broadcast (fun r => r.species_stagnant) s.reporters

/-- `ReporterSet.info` (lines 61–63). -/
def ReporterSet.info {ε : Type} (s : ReporterSet (Reporter ε)) :
    Except ε Unit :=
  broadcast (fun r => r.info) s.reporters

/-! ### `StdOutReporter` timing window

`end_generation` (lines 157–172) updates the rolling window with
`self.generation_times.append(elapsed)` followed by
`self.generation_times = self.generation_times[-10:]`, and prints the
average line only under `if len(self.generation_times) > 1`.  The elapsed
duration (`time.time() - self.generation_start_time`) enters the window as
an opaque value of type `α`. -/

/-- The window update of `StdOutReporter.end_generation` (lines 158–159):
append, then keep the last ten entries (`l[-10:]` is all of `l` when
`len(l) ≤ 10`, otherwise its last ten elements — i.e. drop
`len(l) - 10`). -/
def updateGenerationTimes {α : Type} (times : List α) (elapsed : α) : List α :=
  let l := times ++ [elapsed]
  l.drop (l.length - 10)

/-- The condition of line 165, `if len(self.generation_times) > 1`, guarding
the `... ({1:.3f} average)` output. -/
def reportsAverage {α : Type} (times : List α) : Bool :=
  decide (1 < times.length)

/-! ## Concrete instances used by counterexamples and witnesses -/

/-- A population of ten unevaluated genomes with keys `0, …, 9`. -/
def g10 : List (Genome Int) :=
  (List.range 10).map (fun k => { key := k, fitness := none })

/-- A population of four unevaluated genomes with keys `0, …, 3`. -/
def g4 : List (Genome Int) :=
  (List.range 4).map (fun k => { key := k, fitness := none })

/-- A well-behaved evaluation worker: returns a copy of each genome of its
chunk with fitness `1` filled in (per the external evaluation-function
contract, one result per input genome). -/
def echoWork : Nat → List (Genome Int) → JobOutcome Int :=
  fun _ c => .done (c.map (fun g => { key := g.key, fitness := some 1 }))

/-- A worker behaviour where exactly the job of client `0` exceeds the
bounded wait. -/
def workTimeout0 : Nat → List (Genome Int) → JobOutcome Int :=
  fun i c => if i = 0 then .timeout else .done c

/-- A worker behaviour where exactly the job of client `1` exceeds the
bounded wait. -/
def workTimeout1 : Nat → List (Genome Int) → JobOutcome Int :=
  fun i c => if i = 1 then .timeout else .done c

/-- A reporter hook (over reporter ids) that always returns normally. -/
def hookOk : Nat → Except Nat Unit :=
  fun _ => .ok ()

/-- A reporter hook (over reporter ids) on which reporter `1` raises
exception `7` and every other reporter returns normally. -/
def hookFail1 : Nat → Except Nat Unit :=
  fun n => if n = 1 then .error 7 else .ok ()

/-! ## Shared lemmas -/

/-- The un-instrumented broadcast loop is the second component of the
instrumented one. -/
theorem broadcast_eq_dispatchTrace {R ε : Type} (hook : R → Except ε Unit) :
    ∀ l : List R, broadcast hook l = (dispatchTrace hook l).2 := by
  intro l
  induction l with
  | nil => rfl
  | cons r rs ih =>
      simp only [broadcast, dispatchTrace]
      cases hook r with
      | ok _ => simpa using ih
      | error e => rfl

/-- When every registered hook succeeds, the broadcast loop visits exactly
the registered reporters, in registration order, and returns normally. -/
theorem dispatchTrace_all_ok {R ε : Type} (hook : R → Except ε Unit) :
    ∀ l : List R, (∀ r ∈ l, hook r = .ok ()) →
      dispatchTrace hook l = (l, .ok ()) := by
  intro l h
  induction l with
  | nil => rfl
  | cons r rs ih =>
      have hr : hook r = .ok () := h r (List.mem_cons_self r rs)
      simp only [dispatchTrace, hr, ih (fun x hx => h x (List.mem_cons_of_mem r hx))]

/-- When the hooks of a prefix succeed and the next hook raises, the loop
visits exactly the prefix plus the raising reporter and propagates the
exception; later reporters are never visited. -/
theorem dispatchTrace_abort {R ε : Type} (hook : R → Except ε Unit)
    (xs : List R) (y : R) (zs : List R) (e : ε)
    (hxs : ∀ r ∈ xs, hook r = .ok ()) (hy : hook y = .error e) :
    dispatchTrace hook (xs ++ y :: zs) = (xs ++ [y], .error e) := by
  induction xs with
  | nil => simp [dispatchTrace, hy]
  | cons x xs ih =>
      have hx : hook x = .ok () := hxs x (List.mem_cons_self x xs)
      have ih' := ih (fun r hr => hxs r (List.mem_cons_of_mem x hr))
      simp only [List.cons_append, dispatchTrace, hx, List.append_eq, ih']

/-- A reporter appearing in the invocation trace was registered. -/
theorem dispatchTrace_fst_subset {R ε : Type} (hook : R → Except ε Unit) :
    ∀ l : List R, (dispatchTrace hook l).1 ⊆ l := by
  intro l
  induction l with
  | nil => intro x hx; simp [dispatchTrace] at hx
  | cons r rs ih =>
      intro x hx
      cases h : hook r with
      | ok u =>
          simp only [dispatchTrace, h] at hx
          rcases List.mem_cons.mp hx with hx | hx
          · exact hx ▸ List.mem_cons_self r rs
          · exact List.mem_cons_of_mem r (ih hx)
      | error e =>
          simp only [dispatchTrace, h] at hx
          rcases List.mem_cons.mp hx with hx | hx
          · exact hx ▸ List.mem_cons_self r rs
          · simp at hx

/-- Starting from the fresh reporter's empty window, folding any sequence of
generation durations through the window update leaves exactly the last ten
of them. -/
theorem foldl_updateGenerationTimes {α : Type} (es : List α) :
    es.foldl updateGenerationTimes [] = es.drop (es.length - 10) := by
  induction es using List.reverseRecOn with
  | nil => rfl
  | append_singleton es e ih =>
      rw [List.foldl_append, List.foldl_cons, List.foldl_nil, ih]
      simp only [updateGenerationTimes, List.length_append, List.length_drop,
        List.length_singleton, List.drop_append_eq_append_drop, List.drop_drop]
      have h1 : es.length - 10 + (es.length - (es.length - 10) + 1 - 10)
          = es.length + 1 - 10 := by omega
      have h2 : es.length - (es.length - 10) + 1 - 10
          - (es.length - (es.length - 10)) = 0 := by omega
      have h3 : es.length + 1 - 10 - es.length = 0 := by omega
      rw [h1, h2, h3]

/-! ## Claim theorems -/

/-- C1.  The claim fails on the code: in a fully successful round (one
worker, one client, two genomes, a well-behaved evaluation function that
returns fitness `1` for every genome of its chunk), `evaluate` returns
normally, yet the caller-visible population (second component) is the input
list unchanged — both genomes still have `fitness = none`.  The evaluated
copies exist only in the loop-local variable (third component), because
line 47 of `parallel.py` rebinds the local name `genomes` instead of
writing fitness onto the caller's genome objects. -/
theorem evaluate_never_writes_fitness_back :
    (ParallelEvaluator.init (α := Int) 1 [0]).evaluate
        [⟨0, none⟩, ⟨1, none⟩] echoWork
      = .ok (⟨1, [0], .closed, [[⟨0, none⟩, ⟨1, none⟩]]⟩,
             [⟨0, none⟩, ⟨1, none⟩], [⟨0, some 1⟩, ⟨1, some 1⟩]) := by
  decide

/-- C2.  The claim fails on the code at `N = 10`, `W = 3` (so `W ≤ N`):
`_chunks` is called with chunk size `floor(10/3) = 3` and yields
`ceil(10/3) = 4` chunks — not exactly `W = 3` — of sizes `[3, 3, 3, 1]`,
which differ by `2` — not by at most `1`. -/
theorem chunks_ten_genomes_three_workers :
    evaluateChunks g10 3 = .ok (chunksList g10 3)
    ∧ (chunksList g10 3).length = 4
    ∧ (chunksList g10 3).map List.length = [3, 3, 3, 1] := by
  decide

/-- C3.  The claim fails on the code: with `N = 10` genomes and `W = 3`
clients the partition has `4` chunks, which disagrees with the `3` clients,
yet `evaluate` raises no error at all — it submits exactly one job per
client (three jobs, covering chunks `0`–`2`) and silently never dispatches
the fourth chunk, so genome `9` is never evaluated.  There is no
chunk/client-count check anywhere in `evaluate`. -/
theorem evaluate_no_partition_check :
    (chunksList g10 (g10.length / 3)).length = 4
    ∧ (ParallelEvaluator.init (α := Int) 3 [0, 1, 2]).evaluate g10 echoWork
      = .ok (⟨3, [0, 1, 2], .closed, chunksList g10 (g10.length / 3)⟩,
             g10, [⟨6, some 1⟩, ⟨7, some 1⟩, ⟨8, some 1⟩])
    ∧ dispatchJobs .run echoWork [0, 1, 2] (chunksList g10 (g10.length / 3))
      = .ok [.done [⟨0, some 1⟩, ⟨1, some 1⟩, ⟨2, some 1⟩],
             .done [⟨3, some 1⟩, ⟨4, some 1⟩, ⟨5, some 1⟩],
             .done [⟨6, some 1⟩, ⟨7, some 1⟩, ⟨8, some 1⟩]] := by
  decide

/-- C4.  The claim fails on the code: `evaluate` itself closes and joins the
pool at the end of **every** call (lines 43–44), not only at evaluator
teardown.  After one successful `evaluate`, the evaluator's pool is closed,
and a second `evaluate` on the same evaluator fails at its first
`apply_async` with `ValueError: Pool not running` — it cannot submit any
job. -/
theorem evaluate_closes_pool_per_round :
    (ParallelEvaluator.init (α := Int) 1 [0]).evaluate
        [⟨0, none⟩, ⟨1, none⟩] echoWork
      = .ok (⟨1, [0], .closed, [[⟨0, none⟩, ⟨1, none⟩]]⟩,
             [⟨0, none⟩, ⟨1, none⟩], [⟨0, some 1⟩, ⟨1, some 1⟩])
    ∧ (⟨1, [0], PoolState.closed, [[⟨0, none⟩, ⟨1, none⟩]]⟩ :
          ParallelEvaluator Int).evaluate [⟨0, none⟩, ⟨1, none⟩] echoWork
      = .error .poolNotRunning := by
  decide

/-- C5, counterexample.  Two rounds on the same evaluator input (`N = 4`,
`W = 2`, clients `0` and `1`) in which **different** jobs exceed the bounded
wait — in one the job of client `0` times out, in the other the job of
client `1` — produce the *identical* failure value, the bare
`multiprocessing.TimeoutError` (raised by Python with no arguments).  The
raised error therefore cannot identify which job(s) did not complete,
refuting the claim's "identifying the job(s)". -/
theorem timeout_error_carries_no_job_identity :
    (ParallelEvaluator.init (α := Int) 2 [0, 1]).evaluate g4 workTimeout0
      = .error .timeoutError
    ∧ (ParallelEvaluator.init (α := Int) 2 [0, 1]).evaluate g4 workTimeout1
      = .error .timeoutError
    ∧ (ParallelEvaluator.init (α := Int) 2 [0, 1]).evaluate g4 workTimeout0
      = (ParallelEvaluator.init (α := Int) 2 [0, 1]).evaluate g4 workTimeout1 := by
  decide

/-- C5, amended.  When any job's bounded wait expires, the result loop of
`evaluate` propagates `multiprocessing.TimeoutError` to the caller — the
round fails explicitly, never silently — though the error identifies
nothing about which job(s) timed out. -/
theorem collectResults_timeout_signals_failure {α : Type}
    (genomes : List (Genome α)) (outcomes : List (JobOutcome α))
    (h : JobOutcome.timeout ∈ outcomes) :
    collectResults genomes outcomes = .error .timeoutError := by
  induction outcomes generalizing genomes with
  | nil => cases h
  | cons o rest ih =>
      cases o with
      | done r =>
          have h' : (JobOutcome.timeout : JobOutcome α) ∈ rest := by
            rcases List.mem_cons.mp h with h | h
            · exact absurd h (by simp)
            · exact h
          simpa [collectResults] using ih r h'
      | timeout => rfl

/-- Witness for `collectResults_timeout_signals_failure`: a concrete round
whose second job times out fails with the timeout error. -/
theorem collectResults_timeout_signals_failure_witness :
    collectResults g4 [JobOutcome.done g4, JobOutcome.timeout]
      = .error .timeoutError :=
  collectResults_timeout_signals_failure g4
    [JobOutcome.done g4, JobOutcome.timeout] (by decide)

/-- C9.  `evaluate` begins (lines 37–38) by computing
`math.floor(len(genomes)/self.num_workers)` and materialising
`self._chunks`: with `0 < W` workers and `len(genomes) < W` the chunk size
is `0`, so `range(0, len(genomes), 0)` raises
`ValueError: range() arg 3 must not be zero` and `evaluate` produces no
chunks; with `W = 0` the division itself raises `ZeroDivisionError`; and
with `len(genomes) ≥ W ≥ 1` the chunking step succeeds.  So the chunking
stage of `evaluate` is total exactly under `len(genomes) ≥ W ≥ 1`. -/
theorem evaluateChunks_requires_enough_genomes (G : Type) :
    (∀ (e : ParallelEvaluator Int) (genomes : List (Genome Int))
        (work : Nat → List (Genome Int) → JobOutcome Int),
        0 < e.num_workers → genomes.length < e.num_workers →
        e.evaluate genomes work = .error .rangeStepZero)
    ∧ (∀ genomes : List G, evaluateChunks genomes 0 = .error .zeroDivisionError)
    ∧ (∀ (genomes : List G) (W : Nat), 0 < W → W ≤ genomes.length →
        evaluateChunks genomes W
          = .ok (chunksList genomes (genomes.length / W))) := by
  refine ⟨?_, ?_, ?_⟩
  · intro e genomes work hW hlt
    have hz : genomes.length / e.num_workers = 0 := Nat.div_eq_of_lt hlt
    have hne : e.num_workers ≠ 0 := Nat.pos_iff_ne_zero.mp hW
    simp [ParallelEvaluator.evaluate, chunksE, hz, hne]
  · intro genomes
    simp [evaluateChunks]
  · intro genomes W hW hle
    have hz : genomes.length / W ≠ 0 :=
      Nat.pos_iff_ne_zero.mp (Nat.div_pos hle hW)
    have hne : W ≠ 0 := Nat.pos_iff_ne_zero.mp hW
    simp [evaluateChunks, chunksE, hz, hne]

/-- Witness for `evaluateChunks_requires_enough_genomes`: three workers on a
two-genome population raise the `range`-step error; one worker on the same
population partitions it successfully. -/
theorem evaluateChunks_requires_enough_genomes_witness :
    (ParallelEvaluator.init (α := Int) 3 [0, 1, 2]).evaluate
        [⟨0, none⟩, ⟨1, none⟩] echoWork = .error .rangeStepZero
    ∧ evaluateChunks (G := Genome Int) [⟨0, none⟩, ⟨1, none⟩] 0
      = .error .zeroDivisionError
    ∧ evaluateChunks (G := Genome Int) [⟨0, none⟩, ⟨1, none⟩] 1
      = .ok (chunksList [⟨0, none⟩, ⟨1, none⟩]
          (([⟨0, none⟩, ⟨1, none⟩] : List (Genome Int)).length / 1)) :=
  ⟨(evaluateChunks_requires_enough_genomes (Genome Int)).1
      (ParallelEvaluator.init 3 [0, 1, 2]) [⟨0, none⟩, ⟨1, none⟩] echoWork
      (by decide) (by decide),
   (evaluateChunks_requires_enough_genomes (Genome Int)).2.1
      [⟨0, none⟩, ⟨1, none⟩],
   (evaluateChunks_requires_enough_genomes (Genome Int)).2.2
      [⟨0, none⟩, ⟨1, none⟩] 1 (by decide) (by decide)⟩

/-- C6.  Every one of the eight broadcast methods of `ReporterSet` is the
same sequential loop over `self.reporters` (first conjunct: each method
equals the instrumented loop over its hook).  That loop (second conjunct)
invokes every registered reporter's hook exactly once, in registration
order, when all hooks return normally; and (third conjunct) when a hook
raises, the loop visits exactly the reporters registered before it plus the
raising one, propagates the exception to the broadcaster's caller, and no
later reporter is visited. -/
theorem broadcast_in_order_abort_on_failure :
    (∀ (ε : Type) (s : ReporterSet (Reporter ε)),
        s.start_generation
            = (dispatchTrace (fun r => r.start_generation) s.reporters).2
        ∧ s.end_generation
            = (dispatchTrace (fun r => r.end_generation) s.reporters).2
        ∧ s.post_evaluate
            = (dispatchTrace (fun r => r.post_evaluate) s.reporters).2
        ∧ s.post_reproduction
            = (dispatchTrace (fun r => r.post_reproduction) s.reporters).2
        ∧ s.complete_extinction
            = (dispatchTrace (fun r => r.complete_extinction) s.reporters).2
        ∧ s.found_solution
            = (dispatchTrace (fun r => r.found_solution) s.reporters).2
        ∧ s.species_stagnant
            = (dispatchTrace (fun r => r.species_stagnant) s.reporters).2
        ∧ s.info = (dispatchTrace (fun r => r.info) s.reporters).2)
    ∧ (∀ (R ε : Type) (hook : R → Except ε Unit) (l : List R),
        (∀ r ∈ l, hook r = .ok ()) → dispatchTrace hook l = (l, .ok ()))
    ∧ (∀ (R ε : Type) (hook : R → Except ε Unit) (xs : List R) (y : R)
        (zs : List R) (e : ε),
        (∀ r ∈ xs, hook r = .ok ()) → hook y = .error e →
        dispatchTrace hook (xs ++ y :: zs) = (xs ++ [y], .error e)) :=
  ⟨fun _ s =>
    ⟨broadcast_eq_dispatchTrace _ s.reporters,
     broadcast_eq_dispatchTrace _ s.reporters,
     broadcast_eq_dispatchTrace _ s.reporters,
     broadcast_eq_dispatchTrace _ s.reporters,
     broadcast_eq_dispatchTrace _ s.reporters,
     broadcast_eq_dispatchTrace _ s.reporters,
     broadcast_eq_dispatchTrace _ s.reporters,
     broadcast_eq_dispatchTrace _ s.reporters⟩,
   fun _ _ hook l h => dispatchTrace_all_ok hook l h,
   fun _ _ hook xs y zs e hxs hy => dispatchTrace_abort hook xs y zs e hxs hy⟩

/-- Witness for `broadcast_in_order_abort_on_failure`: with three reporters
`0, 1, 2` and all hooks succeeding, all three are invoked in order; when
reporter `1` raises exception `7`, reporters `0` and `1` are invoked, the
exception propagates, and reporter `2` is never visited. -/
theorem broadcast_in_order_abort_on_failure_witness :
    dispatchTrace hookOk [0, 1, 2] = ([0, 1, 2], .ok ())
    ∧ dispatchTrace hookFail1 ([0] ++ 1 :: [2]) = ([0] ++ [1], .error 7) :=
  ⟨broadcast_in_order_abort_on_failure.2.1 Nat Nat hookOk [0, 1, 2] (by decide),
   broadcast_in_order_abort_on_failure.2.2 Nat Nat hookFail1 [0] 1 [2] 7
     (by decide) (by decide)⟩

/-- C7, counterexample.  The claim fails on the code when the same observer
object is registered twice: with registry `[0, 0]`, `remove 0` succeeds but
deletes only the first entry (Python `list.remove` removes the first
occurrence), leaving registry `[0]`, and the very next broadcast still
invokes observer `0`'s hook — so `remove` does *not* guarantee the observer
receives no events afterward. -/
theorem remove_leaves_duplicate_receiving_events :
    (⟨[0, 0]⟩ : ReporterSet Nat).remove 0 = .ok ⟨[0]⟩
    ∧ 0 ∈ (dispatchTrace hookOk [0]).1 := by
  decide

/-- C7, amended.  `remove` deletes the first matching registry entry, so an
observer registered exactly once is gone from the registry and receives no
event from any later broadcast; and `remove` of an observer that is not
registered fails with `ValueError` (the spec's `NotRegistered`) rather than
succeeding silently. -/
theorem remove_first_occurrence_or_notRegistered {R : Type} [DecidableEq R]
    (ε : Type) (s : ReporterSet R) (o : R) :
    (s.reporters.count o = 1 →
      ∃ s', s.remove o = .ok s' ∧ o ∉ s'.reporters
        ∧ ∀ hook : R → Except ε Unit, o ∉ (dispatchTrace hook s'.reporters).1)
    ∧ (o ∉ s.reporters → s.remove o = .error .notRegistered) := by
  constructor
  · intro hcount
    have hmem : o ∈ s.reporters :=
      List.count_pos_iff.mp (by omega)
    refine ⟨⟨s.reporters.erase o⟩, ?_, ?_, ?_⟩
    · simp [ReporterSet.remove, hmem]
    · have : (s.reporters.erase o).count o = 0 := by
        rw [List.count_erase_self]
        omega
      exact List.count_eq_zero.mp this
    · intro hook hmem'
      have : (s.reporters.erase o).count o = 0 := by
        rw [List.count_erase_self]
        omega
      exact absurd (dispatchTrace_fst_subset hook _ hmem')
        (List.count_eq_zero.mp this)
  · intro hnot
    simp [ReporterSet.remove, hnot]

/-- Witness for `remove_first_occurrence_or_notRegistered`: removing
observer `3` from registry `[3]` empties it and no later broadcast invokes
`3`; removing `3` from the empty registry raises the error. -/
theorem remove_first_occurrence_or_notRegistered_witness :
    (∃ s', (⟨[3]⟩ : ReporterSet Nat).remove 3 = .ok s' ∧ 3 ∉ s'.reporters
        ∧ ∀ hook : Nat → Except Nat Unit,
            3 ∉ (dispatchTrace hook s'.reporters).1)
    ∧ (⟨[]⟩ : ReporterSet Nat).remove 3 = .error .notRegistered :=
  ⟨(remove_first_occurrence_or_notRegistered Nat ⟨[3]⟩ 3).1 (by decide),
   (remove_first_occurrence_or_notRegistered Nat ⟨[]⟩ 3).2 (by decide)⟩

/-- C8.  The rolling window of `StdOutReporter.end_generation`: (i) after
any update the window holds at most ten entries; (ii) starting from the
fresh reporter's empty window, after eleven generation ends the window is
exactly the last ten durations — the oldest (first) duration has been
evicted; (iii) the average line is printed exactly when the window holds at
least two samples. -/
theorem generation_times_window_bound (α : Type) :
    (∀ (times : List α) (elapsed : α),
        (updateGenerationTimes times elapsed).length ≤ 10)
    ∧ (∀ es : List α, es.length = 11 →
        es.foldl updateGenerationTimes [] = es.drop 1)
    ∧ (∀ times : List α, reportsAverage times = true ↔ 2 ≤ times.length) := by
  refine ⟨?_, ?_, ?_⟩
  · intro times elapsed
    simp only [updateGenerationTimes, List.length_drop, List.length_append,
      List.length_singleton]
    omega
  · intro es h
    rw [foldl_updateGenerationTimes, h]
  · intro times
    simp [reportsAverage]
    omega

/-- Witness for `generation_times_window_bound`: folding the eleven
durations `0, …, 10` through the window leaves `1, …, 10` — the first
duration has been evicted. -/
theorem generation_times_window_bound_witness :
    (List.range 11).foldl updateGenerationTimes [] = (List.range 11).drop 1 :=
  (generation_times_window_bound Nat).2.1 (List.range 11) (by decide)

/-- C10.  `add` appends unconditionally — no duplicate check (first
conjunct).  Registering the same observer `o` twice on a registry not
already containing it makes every subsequent broadcast (all hooks
succeeding) invoke `o`'s hook exactly twice per event; a single `remove o`
then succeeds but deletes only the first of the two entries, and later
broadcasts still invoke `o`'s hook once per event. -/
theorem add_no_duplicate_check {R : Type} [DecidableEq R] (ε : Type)
    (s : ReporterSet R) (o : R) (hook : R → Except ε Unit) :
    ((s.add o).reporters = s.reporters ++ [o])
    ∧ (o ∉ s.reporters → (∀ r ∈ s.reporters, hook r = .ok ()) →
        hook o = .ok () →
        (dispatchTrace hook ((s.add o).add o).reporters).1.count o = 2
        ∧ ∃ s', ((s.add o).add o).remove o = .ok s'
            ∧ s'.reporters = s.reporters ++ [o]
            ∧ (dispatchTrace hook s'.reporters).1.count o = 1) := by
  refine ⟨rfl, fun hnot hall hok => ?_⟩
  have hall2 : ∀ r ∈ ((s.add o).add o).reporters, hook r = .ok () := by
    intro r hr
    simp only [ReporterSet.add, List.append_assoc, List.mem_append] at hr
    rcases hr with hr | hr | hr
    · exact hall r hr
    · simp only [List.mem_singleton.mp hr, hok]
    · simp only [List.mem_singleton.mp hr, hok]
  have hcount0 : s.reporters.count o = 0 := List.count_eq_zero.mpr hnot
  refine ⟨?_, ⟨s.reporters ++ [o]⟩, ?_, rfl, ?_⟩
  · rw [dispatchTrace_all_ok hook _ hall2]
    simp only [ReporterSet.add, List.count_append, hcount0,
      List.count_singleton, List.count_cons]
    simp
  · have hmem : o ∈ ((s.add o).add o).reporters := by
      simp [ReporterSet.add]
    have herase : (((s.add o).add o).reporters).erase o = s.reporters ++ [o] := by
      simp only [ReporterSet.add, List.append_assoc]
      rw [List.erase_append_right _ hnot]
      simp [List.erase_cons_head]
    simp [ReporterSet.remove, hmem, herase]
  · have hall1 : ∀ r ∈ s.reporters ++ [o], hook r = .ok () := by
      intro r hr
      rcases List.mem_append.mp hr with hr | hr
      · exact hall r hr
      · simp only [List.mem_singleton.mp hr, hok]
    rw [dispatchTrace_all_ok hook _ hall1]
    simp [List.count_append, hcount0]

/-- Witness for `add_no_duplicate_check`: registering observer `0` twice on
an empty registry makes a broadcast invoke it twice; after one `remove`,
broadcasts still invoke it once. -/
theorem add_no_duplicate_check_witness :
    ((ReporterSet.init.add 0).reporters = ReporterSet.init.reporters ++ [0])
    ∧ ((dispatchTrace hookOk
          ((ReporterSet.init.add 0).add 0).reporters).1.count 0 = 2
        ∧ ∃ s', ((ReporterSet.init.add 0).add 0).remove 0 = .ok s'
            ∧ s'.reporters = ReporterSet.init.reporters ++ [0]
            ∧ (dispatchTrace hookOk s'.reporters).1.count 0 = 1) :=
  ⟨(add_no_duplicate_check Nat ReporterSet.init 0 hookOk).1,
   (add_no_duplicate_check Nat ReporterSet.init 0 hookOk).2
     (by decide) (by decide) (by decide)⟩

end Neat
